import Mathlib

/-!
Verification of the ConvAI memory and retrieval subsystem.

This file gives a shallow embedding, in Lean 4, of the code under
Backend/app (Pinecone_Utils.py, memory.py, document_processor.py and the
context-assembly fragment of main.py), and settles the frozen claims
C1..C10 against it.  External collaborators (the Pinecone index, the
OpenAI embedding client, the langchain token splitter) enter as explicit
oracle parameters: an oracle value enumerates every outcome the external
call can have (success, empty result, raised exception), and the
embedded functions reproduce the Python control flow around them.
Strings are Lean strings; Python character-level operations (slicing,
strip, rfind, split) are embedded on the underlying character lists.
-/

set_option maxRecDepth 20000

namespace ConvAI

/-! ## Vector store (Pinecone_Utils.py, class PineconeVectorStore)

The Pinecone index is modelled as the log of upserts: a list of
(namespace, record) pairs.  Each stored record keeps the user_id that
the calling code wrote into its metadata (store_conversation is called
with metadata containing the owning user id in both call sites), so a
record remembers which user it was stored for.  A namespaced query
returns exactly the records of the queried namespace: per the provider
interface, upsert and query are namespace-scoped. -/

/-- A record in the vector index. owner is the user_id field the caller
put into the metadata; payload stands for the stored text. -/
structure VRecord where
  owner : String
  payload : String
deriving DecidableEq, Repr

/-- The index as the log of upserts: (namespace, record) pairs. -/
abbrev VIndex := List (String × VRecord)

/-- Pinecone_Utils.py line 54/76/101/114: namespace = f"user_{user_id}". -/
def pineconeNamespace (user_id : String) : String := "user_" ++ user_id

/-- PineconeVectorStore.store_conversation: upsert one record into the
namespace derived from the user_id argument. -/
def store_conversation (idx : VIndex) (user_id : String) (rec : VRecord) : VIndex :=
  idx ++ [(pineconeNamespace user_id, rec)]

/-- PineconeVectorStore.similarity_search: query scoped to the namespace
derived from the user_id argument (similarity ranking is external, so the
model returns every record of the namespace in log order; any ranked
sublist the provider could return is a sublist of this). -/
def similarity_search (idx : VIndex) (user_id : String) : List VRecord :=
  (idx.filter (fun p => p.1 == pineconeNamespace user_id)).map (fun p => p.2)

/-- memory.py line 57: conversation turns are stored with the raw user id
as the user_id argument, and metadata user_id = the same raw id. -/
def storeConversationTurn (idx : VIndex) (uid payload : String) : VIndex :=
  store_conversation idx uid ⟨uid, payload⟩

/-- document_processor.py line 183: document chunks are stored with
user_id = f"{user_id}_docs", while the chunk metadata records the raw
user id (line 173). -/
def storeDocumentChunk (idx : VIndex) (uid payload : String) : VIndex :=
  store_conversation idx (uid ++ "_docs") ⟨uid, payload⟩

/-- memory.py get_relevant_context / Pinecone similarity_search with the
raw user id: a conversation-namespace search. -/
def searchConversations (idx : VIndex) (uid : String) : List VRecord :=
  similarity_search idx uid

/-- document_processor.py line 248: DocumentRetriever.search_documents
queries with user_id = f"{user_id}_docs": a document-namespace search. -/
def searchUserDocuments (idx : VIndex) (uid : String) : List VRecord :=
  similarity_search idx (uid ++ "_docs")

/-- The two kinds of write the repository performs against the index. -/
inductive StoreEvent
  | conv (uid : String) (payload : String)
  | doc (uid : String) (payload : String)
deriving DecidableEq, Repr

def applyEvent (idx : VIndex) : StoreEvent → VIndex
  | .conv uid p => storeConversationTurn idx uid p
  | .doc uid p => storeDocumentChunk idx uid p

/-- Replay a sequence of writes against an empty index. -/
def buildIndex (evs : List StoreEvent) : VIndex :=
  evs.foldl applyEvent []

lemma string_append_data (a b : String) : (a ++ b).data = a.data ++ b.data := by
  cases a; cases b; rfl

lemma string_append_left_cancel {a b c : String} (h : a ++ b = a ++ c) : b = c := by
  have hd : a.data ++ b.data = a.data ++ c.data := by
    rw [← string_append_data, ← string_append_data, h]
  cases b; cases c
  simp only [List.append_cancel_left_eq] at hd
  exact congrArg String.mk hd

lemma string_append_right_cancel {a b c : String} (h : a ++ c = b ++ c) : a = b := by
  have hd : a.data ++ c.data = b.data ++ c.data := by
    rw [← string_append_data, ← string_append_data, h]
  cases a; cases b
  simp only [List.append_cancel_right_eq] at hd
  exact congrArg String.mk hd

/-- Every pair in a replayed index lies in the namespace derived from its
record owner: the conversation namespace or the document namespace. -/
lemma buildIndex_namespaces (evs : List StoreEvent) :
    ∀ p ∈ buildIndex evs,
      p.1 = pineconeNamespace p.2.owner ∨
      p.1 = pineconeNamespace (p.2.owner ++ "_docs") := by
  suffices h : ∀ (idx : VIndex),
      (∀ p ∈ idx, p.1 = pineconeNamespace p.2.owner ∨
        p.1 = pineconeNamespace (p.2.owner ++ "_docs")) →
      ∀ p ∈ evs.foldl applyEvent idx, p.1 = pineconeNamespace p.2.owner ∨
        p.1 = pineconeNamespace (p.2.owner ++ "_docs") by
    exact h [] (by intro p hp; cases hp)
  induction evs with
  | nil => intro idx hidx; simpa using hidx
  | cons e rest ih =>
      intro idx hidx
      intro p hp
      refine ih (applyEvent idx e) ?_ p hp
      intro q hq
      cases e with
      | conv uid payload =>
          simp only [applyEvent, storeConversationTurn, store_conversation,
            List.mem_append, List.mem_singleton] at hq
          rcases hq with hq | hq
          · exact hidx q hq
          · subst hq; exact Or.inl rfl
      | doc uid payload =>
          simp only [applyEvent, storeDocumentChunk, store_conversation,
            List.mem_append, List.mem_singleton] at hq
          rcases hq with hq | hq
          · exact hidx q hq
          · subst hq; exact Or.inr rfl

/-- C1, amended.  Reads are confined to the namespace derived from the
requesting user id, so for users A and B whose four derived namespaces
are pairwise distinct (A different from B, A different from B ++ "_docs"
and B different from A ++ "_docs"), no similarity search for A (over the
conversation namespace or the document namespace) returns a record
stored for B.  The claim as frozen also asserts this when
user_{A} = user_{B}_docs, where it fails (see the counterexample). -/
theorem namespace_isolation_amended (A B : String) (evs : List StoreEvent)
    (hAB : A ≠ B) (hA : A ≠ B ++ "_docs") (hB : B ≠ A ++ "_docs") :
    (∀ rec ∈ searchConversations (buildIndex evs) A, rec.owner ≠ B) ∧
    (∀ rec ∈ searchUserDocuments (buildIndex evs) A, rec.owner ≠ B) := by
  constructor
  · intro rec hrec hown
    subst hown
    simp only [searchConversations, similarity_search, List.mem_map,
      List.mem_filter] at hrec
    obtain ⟨p, ⟨hp, hns⟩, hsnd⟩ := hrec
    have hns' : p.1 = pineconeNamespace A := eq_of_beq hns
    rcases buildIndex_namespaces evs p hp with h | h
    · rw [hns'] at h
      exact hAB (by rw [← hsnd]; exact string_append_left_cancel h)
    · rw [hns'] at h
      exact hA (by rw [← hsnd]; exact string_append_left_cancel h)
  · intro rec hrec hown
    subst hown
    simp only [searchUserDocuments, similarity_search, List.mem_map,
      List.mem_filter] at hrec
    obtain ⟨p, ⟨hp, hns⟩, hsnd⟩ := hrec
    have hns' : p.1 = pineconeNamespace (A ++ "_docs") := eq_of_beq hns
    rcases buildIndex_namespaces evs p hp with h | h
    · rw [hns'] at h
      have := string_append_left_cancel h
      exact hB (by rw [← hsnd, ← this])
    · rw [hns'] at h
      have h1 := string_append_left_cancel h
      have h2 : A ++ "_docs" = rec.owner ++ "_docs" := by rw [← hsnd]; exact h1
      exact hAB (string_append_right_cancel h2)

/-- C1 witness: with users alice and bob (no namespace collision) the
amended theorem applies; alice sees her own record and the theorem
yields that its owner is not bob. -/
theorem namespace_isolation_witness :
    VRecord.owner ⟨"alice", "x"⟩ ≠ "bob" :=
  (namespace_isolation_amended "alice" "bob" [StoreEvent.conv "alice" "x"]
    (by decide) (by decide) (by decide)).1 ⟨"alice", "x"⟩ (by decide)

/-- C1 counterexample: user ids are only concatenated into namespaces, so
for the distinct users A = "bob_docs" and B = "bob" the conversation
namespace of A equals the document namespace of B, and a conversation
similarity search for A returns the chunk stored for B. -/
theorem namespace_collision_counterexample :
    "bob_docs" ≠ "bob" ∧
    searchConversations (buildIndex [StoreEvent.doc "bob" "chunk1"]) "bob_docs" =
      [⟨"bob", "chunk1"⟩] := by
  constructor
  · decide
  · rfl

/-! ## Session memory (memory.py, class SmartConversationMemory)

chat_memory.messages of a session buffer holds HumanMessage / AIMessage
objects only (save_context appends one of each per turn), modelled as
role-tagged messages.  Python list slicing l[-k:] is embedded as pyTail:
for k = 0 it returns the whole list, as in Python. -/

inductive Role
  | user
  | assistant
deriving DecidableEq, Repr

structure Msg where
  role : Role
  content : String
deriving DecidableEq, Repr

/-- Python slice l[-k:] (for nonnegative k): the last k elements, except
that k = 0 yields the whole list. -/
def pyTail (l : List α) (k : Nat) : List α :=
  if k = 0 then l else l.drop (l.length - k)

/-- memory.py line 79: the recent segment reads the last
max_recent * 2 buffer messages (two per turn), in buffer order. -/
def recentSegment (buffer : List Msg) (max_recent : Nat) : List Msg :=
  pyTail buffer (max_recent * 2)

/-- One hit of the session-filtered similarity search, as consumed by
get_relevant_context: metadata.get("user_message") and
metadata.get("ai_response").  A missing key (Python None) is conflated
with the empty string; both are falsy and the code only tests
truthiness. -/
structure ConvHit where
  user_message : String
  ai_response : String
deriving DecidableEq, Repr

/-- memory.py lines 43 and 79: save_context appends the user message and
the assistant response, in that order, to the session buffer. -/
def save_context (buffer : List Msg) (m r : String) : List Msg :=
  buffer ++ [⟨Role.user, m⟩, ⟨Role.assistant, r⟩]

/-- Pinecone_Utils.py ConversationFormatter.format_conversation. -/
def format_conversation (m r : String) : String :=
  "User: " ++ m ++ "\nAI: " ++ r

/-- The in-process memory state: per-session buffers (session_memories,
with a fresh empty buffer for an unseen session id) and the vector
index. -/
structure MemState where
  buffers : String → List Msg
  index : VIndex

/-- memory.py add_conversation_turn: first the session-buffer write
(save_context), then, inside try/except, the embedding and the vector
upsert; vectorOk enumerates the try-block outcome (False covers an
embedding or upsert exception, which is caught and only logged, leaving
the index unchanged).  The buffer write is unconditional and ordered
before the vector write. -/
def add_conversation_turn (st : MemState) (uid sid m r : String) (vectorOk : Bool) :
    MemState :=
  ⟨fun s => if s = sid then save_context (st.buffers s) m r else st.buffers s,
   if vectorOk then storeConversationTurn st.index uid (format_conversation m r)
   else st.index⟩

/-- memory.py line 98: the set of user-message contents of the recent
segment, used for deduplication. -/
def recentUsersOf (recent : List Msg) : List String :=
  (recent.filter (fun msg => msg.role == Role.user)).map Msg.content

/-- memory.py line 106: a hit survives when both metadata fields are
present (truthy) and its user message is not already among the recent
user messages. -/
def keepHit (recentUsers : List String) (h : ConvHit) : Bool :=
  h.user_message != "" && h.ai_response != "" &&
    !(recentUsers.contains h.user_message)

/-- memory.py lines 107-110: a surviving hit contributes its user
message immediately followed by its assistant response. -/
def hitPair (h : ConvHit) : List Msg :=
  [⟨Role.user, h.user_message⟩, ⟨Role.assistant, h.ai_response⟩]

/-- The loop body of memory.py lines 100-110. -/
def dedupStep (recentUsers : List String) (acc : List Msg) (h : ConvHit) : List Msg :=
  if keepHit recentUsers h then acc ++ hitPair h else acc

/-- memory.py lines 100-110: fold the retrieved hits into the relevant
segment. -/
def relevantOf (recentUsers : List String) (hits : List ConvHit) : List Msg :=
  hits.foldl (dedupStep recentUsers) []

/-- memory.py get_relevant_context: recent segment from the session
buffer, then the session-filtered similarity search (retrieval = none
models an embedding exception, caught with context_messages left empty;
the searched hits themselves are the oracle since ranking is external),
deduplicated against the user messages of the recent segment, and
finally relevant ++ recent. -/
def get_relevant_context (st : MemState) (sid : String)
    (retrieval : Option (List ConvHit)) (max_recent : Nat) : List Msg :=
  (match retrieval with
   | none => []
   | some hits =>
      relevantOf (recentUsersOf (recentSegment (st.buffers sid) max_recent)) hits)
  ++ recentSegment (st.buffers sid) max_recent

lemma foldl_dedupStep_eq (recentUsers : List String) (hits : List ConvHit)
    (acc : List Msg) :
    hits.foldl (dedupStep recentUsers) acc =
      acc ++ (hits.filter (keepHit recentUsers)).flatMap hitPair := by
  induction hits generalizing acc with
  | nil => simp
  | cons h rest ih =>
      rw [List.foldl_cons, List.filter_cons]
      cases hc : keepHit recentUsers h with
      | true =>
          have hstep : dedupStep recentUsers acc h = acc ++ hitPair h := by
            unfold dedupStep
            rw [if_pos hc]
          rw [hstep, ih]
          simp [hc, List.append_assoc]
      | false =>
          have hstep : dedupStep recentUsers acc h = acc := by
            unfold dedupStep
            rw [if_neg (by simp [hc])]
          rw [hstep, ih]
          simp [hc]

/-- Flatten a list of (user_message, ai_response) turns into the buffer
layout save_context produces. -/
def flattenTurns (turns : List (String × String)) : List Msg :=
  turns.flatMap (fun t => [⟨Role.user, t.1⟩, ⟨Role.assistant, t.2⟩])

lemma flattenTurns_length (turns : List (String × String)) :
    (flattenTurns turns).length = 2 * turns.length := by
  induction turns with
  | nil => rfl
  | cons t rest ih =>
      simp only [flattenTurns, List.flatMap_cons] at *
      simp only [List.length_append, List.length_cons, List.length_nil, ih]
      omega

lemma flattenTurns_drop (turns : List (String × String)) (k : Nat) :
    (flattenTurns turns).drop (2 * k) = flattenTurns (turns.drop k) := by
  induction turns generalizing k with
  | nil => simp [flattenTurns]
  | cons t rest ih =>
      cases k with
      | zero => simp
      | succ k' =>
          have h2 : 2 * (k' + 1) = 2 * k' + 1 + 1 := by omega
          simp only [flattenTurns, List.flatMap_cons] at *
          rw [h2]
          simp only [List.drop_succ_cons, List.cons_append, List.drop]
          exact ih k'

lemma pyTail_flattenTurns (turns : List (String × String)) (n : Nat) :
    pyTail (flattenTurns turns) (n * 2) = flattenTurns (pyTail turns n) := by
  unfold pyTail
  by_cases hn : n = 0
  · simp [hn]
  · rw [if_neg (by omega), if_neg hn, flattenTurns_length]
    have : 2 * turns.length - n * 2 = 2 * (turns.length - n) := by omega
    rw [this, flattenTurns_drop]

/-- C6.  get_relevant_context returns the relevant segment followed by
the recent segment; the recent segment is the last max_recent turns of
the session buffer in buffer (chronological) order; a retrieved hit
whose user_message exactly equals a user message of the recent segment
(or whose user_message or ai_response is missing or empty) is dropped,
and each surviving hit contributes its user message immediately followed
by its assistant response. -/
theorem context_order_dedup (st : MemState) (sid : String) (hits : List ConvHit)
    (max_recent : Nat) :
    get_relevant_context st sid (some hits) max_recent =
      (hits.filter (keepHit (recentUsersOf
          (recentSegment (st.buffers sid) max_recent)))).flatMap hitPair
      ++ recentSegment (st.buffers sid) max_recent
    ∧ ∀ turns : List (String × String),
        st.buffers sid = flattenTurns turns →
        recentSegment (st.buffers sid) max_recent =
          flattenTurns (pyTail turns max_recent) := by
  constructor
  · show relevantOf _ hits ++ _ = _
    rw [relevantOf, foldl_dedupStep_eq]
    simp
  · intro turns hturns
    rw [recentSegment, hturns, pyTail_flattenTurns]

/-- C6 witness: a buffer of one turn with max_recent = 1; the recent
segment is that turn flattened. -/
theorem context_order_dedup_witness :
    recentSegment [⟨Role.user, "a"⟩, ⟨Role.assistant, "b"⟩] 1 =
      flattenTurns [("a", "b")] :=
  (context_order_dedup ⟨fun _ => [⟨Role.user, "a"⟩, ⟨Role.assistant, "b"⟩], []⟩
      "s" [] 1).2 [("a", "b")] rfl

lemma pyTail_last_two (l : List α) (x y : α) : pyTail (l ++ [x, y]) 2 = [x, y] := by
  unfold pyTail
  rw [if_neg (by omega)]
  have hlen : (l ++ [x, y]).length - 2 = l.length := by simp
  rw [hlen, List.drop_left]

lemma pyTail_append_pair (l : List α) (x y : α) (k : Nat) (hk : 2 ≤ k) :
    ∃ mid, pyTail (l ++ [x, y]) k = mid ++ [x, y] := by
  refine ⟨l.drop ((l ++ [x, y]).length - k), ?_⟩
  unfold pyTail
  rw [if_neg (by omega), List.drop_append_eq_append_drop]
  have h1 : (l ++ [x, y]).length - k - l.length = 0 := by
    simp only [List.length_append, List.length_cons, List.length_nil]
    omega
  rw [h1]
  rfl

lemma get_relevant_context_eq_append (st : MemState) (sid : String)
    (retrieval : Option (List ConvHit)) (max_recent : Nat) :
    ∃ rel, get_relevant_context st sid retrieval max_recent =
      rel ++ recentSegment (st.buffers sid) max_recent := by
  unfold get_relevant_context
  exact ⟨_, rfl⟩

/-- C5.  After add_conversation_turn writes the session buffer, a
get_relevant_context call on the same session with max_recent at least 1
ends with the new turn: the user message m immediately followed by the
response r close the recent segment, for every outcome of the vector
write (vectorOk false models an embedding or upsert failure; the buffer
write is ordered before the vector write and is unaffected by it). -/
theorem buffer_write_visible (st : MemState) (uid sid m r : String)
    (vectorOk : Bool) (retrieval : Option (List ConvHit)) (max_recent : Nat)
    (h : 1 ≤ max_recent) :
    pyTail (get_relevant_context (add_conversation_turn st uid sid m r vectorOk)
        sid retrieval max_recent) 2 =
      [⟨Role.user, m⟩, ⟨Role.assistant, r⟩] := by
  have hbuf : (add_conversation_turn st uid sid m r vectorOk).buffers sid =
      st.buffers sid ++ [⟨Role.user, m⟩, ⟨Role.assistant, r⟩] := by
    simp [add_conversation_turn, save_context]
  obtain ⟨rel, hrel⟩ := get_relevant_context_eq_append
    (add_conversation_turn st uid sid m r vectorOk) sid retrieval max_recent
  obtain ⟨mid, hmid⟩ := pyTail_append_pair (st.buffers sid)
    (⟨Role.user, m⟩ : Msg) ⟨Role.assistant, r⟩ (max_recent * 2) (by omega)
  rw [hrel, hbuf, recentSegment, hmid, ← List.append_assoc]
  exact pyTail_last_two (rel ++ mid) _ _

/-- C5 witness: starting from empty memory, after adding the turn
(hello, world) with a failed vector write, the context for the session
ends with that turn. -/
theorem buffer_write_visible_witness :
    pyTail (get_relevant_context
        (add_conversation_turn ⟨fun _ => [], []⟩ "u" "s" "hello" "world" false)
        "s" none 1) 2 =
      [⟨Role.user, "hello"⟩, ⟨Role.assistant, "world"⟩] :=
  buffer_write_visible ⟨fun _ => [], []⟩ "u" "s" "hello" "world" false none 1
    (by decide)

/-! ## Chat endpoint context assembly (main.py, chat_endpoint, lines 166-208)

The endpoint strips the incoming message, then: only when the stripped
message is longer than 10 characters does it invoke
memory.get_relevant_context inside try/except (every embedding call and
similarity search of context retrieval happens inside that invocation;
an exception, or a retrieval slower than the 3 second cutoff, leaves
relevant_context empty).  The try-block outcome is the oracle
retrievalOutcome: none models an exception, some l the returned list.
The retrieved context then passes the token-budget enforcement of lines
194-208 before being spliced between the system prompt and the new user
message. -/

/-- Helper for countWords: scan the characters, counting the starts of
maximal whitespace-free runs. -/
def countWordsAux : List Char → Bool → Nat
  | [], _ => 0
  | c :: rest, inWord =>
      if c.isWhitespace then countWordsAux rest false
      else (if inWord then 0 else 1) + countWordsAux rest true

/-- Python len(s.split()): the number of maximal whitespace-free words. -/
def countWords (s : String) : Nat :=
  countWordsAux s.data false

/-- Approximate token count of main.py line 200: total word count of the
kept messages. -/
def wordSum (l : List Msg) : Nat :=
  (l.map (fun m => countWords m.content)).sum

/-- main.py lines 195-208: if the context is non-empty, keep at most the
last 6 messages, and if their word count still exceeds 800, keep only
the last 4. An empty context contributes nothing. -/
def trimContext (relevant_context : List Msg) : List Msg :=
  if relevant_context = [] then []
  else
    let limited := if 6 < relevant_context.length then pyTail relevant_context 6
                   else relevant_context
    if 800 < wordSum limited then pyTail limited 4 else limited

/-- main.py lines 166-208: the assembled context of one chat turn,
together with the flag telling whether memory.get_relevant_context was
invoked (no embedding call and no similarity search happen when it is
not).  user_message is the stripped request message. -/
def chat_context (retrievalOutcome : Option (List Msg)) (user_message : String) :
    List Msg × Bool :=
  if 10 < user_message.length then
    (trimContext (retrievalOutcome.getD []), true)
  else ([], false)

lemma pyTail_pyTail_of_le (l : List α) (k1 k2 : Nat) (h2 : k2 ≠ 0) (hle : k2 ≤ k1) :
    pyTail (pyTail l k1) k2 = pyTail l k2 := by
  unfold pyTail
  by_cases h1 : k1 = 0
  · simp [h1]
  · rw [if_neg h1, if_neg h2, if_neg h2, List.drop_drop, List.length_drop]
    congr 1
    omega

/-- C7.  For an assembled relevant+recent context of more than 6
messages, the kept messages are the most recent 6, and when their word
count exceeds 800 the context shrinks further to the most recent 4
messages of the original context (otherwise it stays at the kept 6). -/
theorem token_budget_trim (ctx : List Msg) (h : 6 < ctx.length) :
    trimContext ctx =
      if 800 < wordSum (pyTail ctx 6) then pyTail ctx 4 else pyTail ctx 6 := by
  have hne : ctx ≠ [] := by
    intro hnil
    rw [hnil] at h
    simp at h
  unfold trimContext
  rw [if_neg hne]
  simp only [if_pos h]
  by_cases hw : 800 < wordSum (pyTail ctx 6)
  · rw [if_pos hw, if_pos hw, pyTail_pyTail_of_le ctx 6 4 (by omega) (by omega)]
  · rw [if_neg hw, if_neg hw]

/-- A string of n words separated by spaces, to build concrete inputs
for the token-budget scenario. -/
def spacedWords : Nat → List Char
  | 0 => []
  | n + 1 => 'w' :: ' ' :: spacedWords n

/-- C7 witness: a 9-message context whose last 6 messages hold 801 words
in total is trimmed to exactly its most recent 4 messages. -/
theorem token_budget_trim_witness :
    trimContext (List.replicate 8 (⟨Role.user, "m"⟩ : Msg) ++
        [⟨Role.assistant, String.mk (spacedWords 801)⟩]) =
      pyTail (List.replicate 8 (⟨Role.user, "m"⟩ : Msg) ++
        [⟨Role.assistant, String.mk (spacedWords 801)⟩]) 4 := by
  have h := token_budget_trim (List.replicate 8 (⟨Role.user, "m"⟩ : Msg) ++
    [⟨Role.assistant, String.mk (spacedWords 801)⟩]) (by decide)
  rw [if_pos (by decide)] at h
  exact h

/-- C4, amended.  For an incoming (stripped) message shorter than 10
characters, context retrieval is skipped entirely: get_relevant_context
is not invoked, so no embedding call and no similarity search is made,
and the assembled context is empty; the recent session buffer is not
consulted on this path. -/
theorem short_message_skips_retrieval (retrievalOutcome : Option (List Msg))
    (user_message : String) (h : user_message.length < 10) :
    chat_context retrievalOutcome user_message = ([], false) := by
  unfold chat_context
  rw [if_neg (by omega)]

/-- C4 witness: message "hi" (length 2). -/
theorem short_message_skips_retrieval_witness :
    chat_context none "hi" = ([], false) :=
  short_message_skips_retrieval none "hi" (by decide)

/-- C4 counterexample: for the 3-character message "hi!" and a session
whose buffer holds one earlier turn, the endpoint assembles an empty
context, while the recent session-buffer segment (max_recent = 2 as in
the endpoint call) is that non-empty turn: the assembled context is not
the recent session-buffer segment. -/
theorem short_message_context_counterexample :
    ("hi!".length < 10) ∧
    (chat_context none "hi!").1 = [] ∧
    recentSegment [⟨Role.user, "hello there"⟩, ⟨Role.assistant, "hi"⟩] 2 ≠ [] ∧
    (chat_context none "hi!").1 ≠
      recentSegment [⟨Role.user, "hello there"⟩, ⟨Role.assistant, "hi"⟩] 2 := by
  refine ⟨by decide, rfl, by decide, by decide⟩

/-! ## Document ingestion (document_processor.py, class DocumentProcessor)

Python string primitives used by the chunker, embedded on the character
list of the string: strip (both-ends whitespace removal), rfind over a
slice, and slicing itself (drop/take clamps exactly like Python
slices). -/

/-- Python s.strip(): remove leading and trailing whitespace. -/
def stripChars (l : List Char) : List Char :=
  ((l.dropWhile Char.isWhitespace).reverse.dropWhile Char.isWhitespace).reverse

/-- Python s.strip() on a Lean string. -/
def stripStr (s : String) : String :=
  ⟨stripChars s.data⟩

/-- Index of the last occurrence of ch in the list, if any. -/
def lastIdx (ch : Char) : List Char → Option Nat
  | [] => none
  | c :: rest =>
      match lastIdx ch rest with
      | some j => some (j + 1)
      | none => if c = ch then some 0 else none

/-- Python text.rfind(ch, lo, hi): highest index in [lo, hi) holding ch
(bounds clamped to the text), or none. -/
def pyRfind (l : List Char) (ch : Char) (lo hi : Nat) : Option Nat :=
  (lastIdx ch ((l.drop lo).take (hi - lo))).map (fun j => lo + j)

/-- document_processor.py lines 94-100 with the only used parameters
chunk_size = 3200 and overlap = 800 (the defaults, and exactly what
chunk_text passes as max_tokens * 4 / overlap * 4): the end of the chunk
starting at start, after the sentence-boundary cutback
rfind(".", start + 3000, start + 3200). -/
def chunkEnd (text : List Char) (start : Nat) : Nat :=
  if start + 3200 < text.length then
    match pyRfind text '.' (start + 3000) (start + 3200) with
    | some i => i + 1
    | none => start + 3200
  else start + 3200

/-- The while loop of _simple_chunk_text (document_processor.py lines
93-108), fuel-indexed to stay structural; simple_chunk_text passes
text.length as fuel, which the fuel-stability theorem shows is enough.
Python appends the stripped slice when non-empty, then continues from
end - 800 (the break at start >= len coincides with the loop guard). -/
def simpleChunkLoop : Nat → List Char → Nat → List (List Char)
  | 0, _, _ => []
  | fuel + 1, text, start =>
      if start < text.length then
        let e := chunkEnd text start
        let chunk := stripChars ((text.drop start).take (e - start))
        let rest := simpleChunkLoop fuel text (e - 800)
        if chunk = [] then rest else chunk :: rest
      else []

/-- document_processor.py _simple_chunk_text with chunk_size 3200 and
overlap 800: a text of at most 3200 characters is returned whole (not
stripped, not filtered); longer texts go through the loop. -/
def simple_chunk_text (text : List Char) : List (List Char) :=
  if text.length ≤ 3200 then [text] else simpleChunkLoop text.length text 0

/-- document_processor.py chunk_text: the TokenTextSplitter result is
external, so tokenSplit is the oracle (none models a raised exception).
On success the chunks with stripped length under 51 characters are
discarded; on failure the character-based fallback runs with
3200 = 800 * 4 and 800 = 200 * 4. -/
def chunk_text (tokenSplit : Option (List String)) (text : String) : List String :=
  match tokenSplit with
  | some chunks => chunks.filter (fun c => 50 < (stripStr c).length)
  | none => (simple_chunk_text text.data).map String.mk

/-- Outcome of processing one chunk in the storage loop
(document_processor.py lines 158-200): the embedding call can raise
(caught, counted failed) or return an empty/falsy embedding (counted
failed, no store call), and the store call can raise (caught, counted
failed) or succeed. -/
inductive ChunkOutcome
  | stored
  | embedRaised
  | embedEmpty
  | storeRaised
deriving DecidableEq, Repr

/-- Externally visible processing steps, used to state that nothing is
attempted after an early failure. -/
inductive PDEvent
  | chunking
  | embedCall (i : Nat)
  | storeCall (i : Nat)
deriving DecidableEq, Repr

/-- One entry of the stored_chunks list of the result
(document_processor.py lines 191-194). -/
structure StoredChunkInfo where
  chunk_id : String
  preview : String
deriving DecidableEq, Repr

/-- document_processor.py line 193: preview is the first 100 characters,
with an ellipsis appended when the chunk is longer. -/
def mkPreview (chunk : String) : String :=
  if 100 < chunk.length then chunk.take 100 ++ "..." else chunk

/-- The calls the loop body makes for chunk i: always the embedding
call; the store call only when the embedding neither raised nor came
back empty. -/
def chunkEvents (outcome : Nat → ChunkOutcome) (i : Nat) : List PDEvent :=
  match outcome i with
  | .embedRaised => [.embedCall i]
  | .embedEmpty => [.embedCall i]
  | .storeRaised => [.embedCall i, .storeCall i]
  | .stored => [.embedCall i, .storeCall i]

/-- Python enumerate(chunks). -/
def enumFrom : Nat → List α → List (Nat × α)
  | _, [] => []
  | n, a :: l => (n, a) :: enumFrom (n + 1) l

/-- The chunk storage loop (document_processor.py lines 158-200) over the
enumerated chunks: the stored_chunks entries in order, the failed_chunks
count, and the emitted events. -/
def runChunks (outcome : Nat → ChunkOutcome) (docId : String) :
    List (Nat × String) → List StoredChunkInfo × Nat × List PDEvent
  | [] => ([], 0, [])
  | (i, chunk) :: rest =>
      let r := runChunks outcome docId rest
      match outcome i with
      | .stored =>
          (⟨docId ++ "_chunk_" ++ toString i, mkPreview chunk⟩ :: r.1, r.2.1,
            chunkEvents outcome i ++ r.2.2)
      | _ => (r.1, r.2.1 + 1, chunkEvents outcome i ++ r.2.2)

def processChunks (outcome : Nat → ChunkOutcome) (docId : String)
    (chunks : List String) : List StoredChunkInfo × Nat × List PDEvent :=
  runChunks outcome docId (enumFrom 0 chunks)

/-- Python round half-to-even of a rational to an integer. -/
def roundHalfEven (q : ℚ) : ℤ :=
  if q - (Rat.floor q : ℚ) < 1/2 then Rat.floor q
  else if (1 : ℚ)/2 < q - (Rat.floor q : ℚ) then Rat.floor q + 1
  else if Rat.floor q % 2 = 0 then Rat.floor q else Rat.floor q + 1

/-- Python round(x, 2) on the exact rational value. -/
def round2 (q : ℚ) : ℚ :=
  (roundHalfEven (q * 100) : ℚ) / 100

/-- Outcome of text extraction: the Python code either binds text or
raises ValueError (caught by the top-level handler). -/
inductive ExtractStep
  | ok (text : String)
  | err (msg : String)
deriving DecidableEq, Repr

/-- Python file_type.lower() for the compared ASCII type names. -/
def lowerStr (s : String) : String :=
  ⟨s.data.map Char.toLower⟩

/-- The external oracles of one process_document run: what the pdf/docx
extractors return (they catch their own exceptions and return "", or
page-skipped partial text), whether any text decoding succeeds for txt
files, the TokenTextSplitter outcome, and the per-chunk embed/store
outcomes. -/
structure PDEnv where
  pdfExtract : String
  docxExtract : String
  txtDecode : Option String
  tokenSplit : Option (List String)
  chunkOutcome : Nat → ChunkOutcome

/-- document_processor.py lines 121-139: dispatch on the lowered file
type; txt decoding failure and unsupported types raise ValueError. -/
def extractText (env : PDEnv) (file_type : String) : ExtractStep :=
  if lowerStr file_type = "pdf" then .ok env.pdfExtract
  else if lowerStr file_type = "docx" ∨ lowerStr file_type = "doc" then
    .ok env.docxExtract
  else if lowerStr file_type = "txt" then
    match env.txtDecode with
    | some t => .ok t
    | none => .err "Unable to decode text file"
  else .err ("Unsupported file type: " ++ file_type)

/-- The fields of the success dictionary that the claims mention
(document_processor.py lines 208-220). -/
structure PDSuccess where
  document_id : String
  total_chunks : Nat
  stored_chunks_count : Nat
  failed_chunks : Nat
  success_rate : ℚ
  text_length : Nat
  stored_chunks : List StoredChunkInfo
  status : String
deriving DecidableEq, Repr

/-- The returned dictionary: either the failure dictionary of lines
224-228 (status "failed" with the error message) or the success
dictionary. -/
inductive PDResult
  | failed (error : String)
  | ok (r : PDSuccess)
deriving DecidableEq, Repr

/-- The status key of the returned dictionary. -/
def PDResult.statusOf : PDResult → String
  | .failed _ => "failed"
  | .ok r => r.status

/-- True when the returned dictionary is the failure dictionary. -/
def PDResult.isFailed : PDResult → Bool
  | .failed _ => true
  | .ok _ => false

/-- The success_rate key (absent from the failure dictionary). -/
def PDResult.successRateOf : PDResult → Option ℚ
  | .failed _ => none
  | .ok r => some r.success_rate

/-- The total_chunks key (absent from the failure dictionary). -/
def PDResult.totalChunksOf : PDResult → Option Nat
  | .failed _ => none
  | .ok r => some r.total_chunks

/-- The stored_chunks_count key (absent from the failure dictionary). -/
def PDResult.storedCountOf : PDResult → Option Nat
  | .failed _ => none
  | .ok r => some r.stored_chunks_count

/-- The stored_chunks previews (absent from the failure dictionary). -/
def PDResult.storedChunksOf : PDResult → List StoredChunkInfo
  | .failed _ => []
  | .ok r => r.stored_chunks

/-- document_processor.py process_document: extraction, the minimum-text
check (line 141), chunking (line 149), the per-chunk store loop, and the
completion policy (lines 202-228).  Every internal raise is modelled and
reaches the top-level except, which returns the failure dictionary: the
function is total and never propagates an exception.  The event list
records which chunking/embedding/store steps were attempted. -/
def process_document (env : PDEnv) (filename user_id file_type docId : String) :
    PDResult × List PDEvent :=
  match extractText env file_type with
  | .err e => (.failed e, [])
  | .ok text =>
      if text = "" ∨ (stripStr text).length < 10 then
        (.failed "No meaningful text content found in document", [])
      else
        let chunks := chunk_text env.tokenSplit text
        if chunks = [] then
          (.failed "Failed to create chunks from document text", [.chunking])
        else
          let res := processChunks env.chunkOutcome docId chunks
          if res.1 = [] then
            (.failed "Failed to store any chunks from the document",
              .chunking :: res.2.2)
          else
            (.ok ⟨docId, chunks.length, res.1.length, res.2.1,
              round2 ((res.1.length : ℚ) / (chunks.length : ℚ)),
              text.length, res.1.take 5,
              if (1 : ℚ)/2 < (res.1.length : ℚ) / (chunks.length : ℚ) then "success"
              else "partial_success"⟩,
             .chunking :: res.2.2)

/-! ## Document retrieval (document_processor.py, class DocumentRetriever) -/

/-- Outcome of the query-embedding call in search_specific_documents:
raised (caught by the outer handler), empty/falsy, or a usable vector. -/
inductive EmbedOutcome
  | raised
  | empty
  | ok
deriving DecidableEq, Repr

/-- A hit returned by the filtered similarity search, as read through
metadata.get: optional fields are None when absent,
metadata.get("chunk_text", "") defaults to the empty string, and
chunk_data.get("score", 0) to zero (scores are opaque here). -/
structure DocHit where
  document_id : Option String
  filename : Option String
  chunk_index : Option Nat
  chunk_text : String
  score : Int
  file_type : Option String
  timestamp : Option String
deriving DecidableEq, Repr

/-- One formatted result of search_specific_documents (lines 298-306). -/
structure DocResult where
  document_id : Option String
  filename : Option String
  chunk_index : Option Nat
  content : String
  score : Int
  file_type : Option String
  timestamp : Option String
deriving DecidableEq, Repr

/-- document_processor.py search_specific_documents: empty list when the
query embedding raised or came back falsy; otherwise the hits of the
store (the oracle; the store-side document_id filter is external) pass
the defensive document_id re-check of line 297, and each kept hit is
formatted with content limited to the first 500 characters of its chunk
text. -/
def search_specific_documents (embedOutcome : EmbedOutcome) (hits : List DocHit)
    (document_ids : List String) : List DocResult :=
  match embedOutcome with
  | .raised => []
  | .empty => []
  | .ok =>
      (hits.filter (fun h =>
          match h.document_id with
          | some d => document_ids.contains d
          | none => false)).map
        (fun h => ⟨h.document_id, h.filename, h.chunk_index,
          h.chunk_text.take 500, h.score, h.file_type, h.timestamp⟩)

/-- C8, amended.  Every chunk produced by the token-aware splitter path
has stripped length greater than the 50-character minimum: shorter
chunks are discarded.  (The fallback path applies no such minimum: see
the counterexample.) -/
theorem token_chunk_min_length (ts : List String) (text c : String)
    (h : c ∈ chunk_text (some ts) text) : 50 < (stripStr c).length := by
  simp only [chunk_text] at h
  have := List.of_mem_filter h
  simpa using this

/-- C8 witness: a 61-character chunk passes the filter and the theorem
applies to it. -/
theorem token_chunk_min_length_witness :
    50 < (stripStr
      "0123456789012345678901234567890123456789012345678901234567890").length :=
  token_chunk_min_length
    ["0123456789012345678901234567890123456789012345678901234567890"] ""
    "0123456789012345678901234567890123456789012345678901234567890" (by decide)

/-- C8 counterexample: when token-aware splitting fails, chunk_text runs
the character-based fallback, which returns any text of at most 3200
characters as a single chunk without the 50-character minimum: an
11-character input comes back as an 11-character chunk. -/
theorem fallback_short_chunk_counterexample :
    chunk_text none "0123456789x" = ["0123456789x"] ∧
    ¬ 50 < (stripStr "0123456789x").length := by
  refine ⟨by decide, by decide⟩

/-- C9.  search_specific_documents returns the empty list when the query
embedding raises or is empty, and every returned result passed the
defensive document_id re-check (its document_id is a member of
document_ids) and carries as content the first 500 characters of the
chunk text of one of the hits. -/
theorem specific_search_scoped (emb : EmbedOutcome) (hits : List DocHit)
    (dids : List String) :
    ((emb = EmbedOutcome.raised ∨ emb = EmbedOutcome.empty) →
      search_specific_documents emb hits dids = []) ∧
    (∀ res ∈ search_specific_documents emb hits dids,
      (∃ d, res.document_id = some d ∧ d ∈ dids) ∧
      (∃ h ∈ hits, res.content = h.chunk_text.take 500)) := by
  constructor
  · intro h
    rcases h with h | h <;> subst h <;> rfl
  · intro res hres
    cases emb with
    | raised => simp [search_specific_documents] at hres
    | empty => simp [search_specific_documents] at hres
    | ok =>
        simp only [search_specific_documents] at hres
        rw [List.mem_map] at hres
        obtain ⟨h, hmem, heq⟩ := hres
        have hkeep := List.of_mem_filter hmem
        have hmem' := List.mem_of_mem_filter hmem
        constructor
        · cases hd : h.document_id with
          | none => rw [hd] at hkeep; simp at hkeep
          | some d =>
              refine ⟨d, ?_, ?_⟩
              · rw [← heq]
                exact hd
              · rw [hd] at hkeep
                simpa using hkeep
        · exact ⟨h, hmem', by rw [← heq]⟩

/-- C9 witness: a raised query embedding yields the empty result list. -/
theorem specific_search_scoped_witness :
    search_specific_documents EmbedOutcome.raised [] ["d1"] = [] :=
  (specific_search_scoped EmbedOutcome.raised [] ["d1"]).1 (Or.inl rfl)

lemma pyRfind_lo_le {l : List Char} {ch : Char} {lo hi i : Nat}
    (h : pyRfind l ch lo hi = some i) : lo ≤ i := by
  unfold pyRfind at h
  cases hj : lastIdx ch ((l.drop lo).take (hi - lo)) with
  | none =>
      rw [hj] at h
      simp only [Option.map_none'] at h
      exact Option.noConfusion h
  | some j =>
      rw [hj] at h
      simp only [Option.map_some'] at h
      injection h with h'
      omega

lemma chunkEnd_lower (text : List Char) (start : Nat) :
    start + 3001 ≤ chunkEnd text start := by
  unfold chunkEnd
  by_cases hlt : start + 3200 < text.length
  · rw [if_pos hlt]
    cases hr : pyRfind text '.' (start + 3000) (start + 3200) with
    | none =>
        show start + 3001 ≤ start + 3200
        omega
    | some i =>
        show start + 3001 ≤ i + 1
        have := pyRfind_lo_le hr
        omega
  · rw [if_neg hlt]
    omega

lemma loop_fuel_stable (text : List Char) :
    ∀ f1 start f2 : Nat, text.length - start ≤ f1 → text.length - start ≤ f2 →
      simpleChunkLoop f1 text start = simpleChunkLoop f2 text start := by
  intro f1
  induction f1 with
  | zero =>
      intro start f2 h1 h2
      have hge : ¬ start < text.length := by omega
      cases f2 with
      | zero => rfl
      | succ g2 => simp [simpleChunkLoop, hge]
  | succ g1 ih =>
      intro start f2 h1 h2
      by_cases hlt : start < text.length
      · cases f2 with
        | zero => omega
        | succ g2 =>
            have he := chunkEnd_lower text start
            have hrec := ih (chunkEnd text start - 800) g2 (by omega) (by omega)
            simp only [simpleChunkLoop, if_pos hlt]
            rw [hrec]
      · cases f2 with
        | zero => simp [simpleChunkLoop, hlt]
        | succ g2 => simp [simpleChunkLoop, hlt]

lemma stripChars_ne_nil {l : List Char} {c : Char} (hc : c ∈ l)
    (hw : ¬ c.isWhitespace) : stripChars l ≠ [] := by
  unfold stripChars
  intro hnil
  rw [List.reverse_eq_nil_iff, List.dropWhile_eq_nil_iff] at hnil
  have hmem : c ∈ l.dropWhile Char.isWhitespace := by
    have hsplit := List.takeWhile_append_dropWhile (p := Char.isWhitespace) (l := l)
    rw [← hsplit] at hc
    rcases List.mem_append.mp hc with h | h
    · exact absurd (List.mem_takeWhile_imp h) (by simpa using hw)
    · exact h
  exact hw (by simpa using hnil c (List.mem_reverse.mpr hmem))

lemma window_has_char {text : List Char} {start e p : Nat}
    (h1 : start ≤ p) (h2 : p < e) (h3 : p < text.length) :
    ∃ c ∈ (text.drop start).take (e - start), c = text.get ⟨p, h3⟩ := by
  have hlen : p - start < ((text.drop start).take (e - start)).length := by
    rw [List.length_take, List.length_drop]
    omega
  have hlen2 : p - start < (text.drop start).length := by
    rw [List.length_drop]
    omega
  refine ⟨((text.drop start).take (e - start)).get ⟨p - start, hlen⟩,
    List.get_mem _ _ _, ?_⟩
  have hidx : start + (p - start) = p := by omega
  rw [List.get_eq_getElem, List.get_eq_getElem]
  simp only [List.getElem_take, List.getElem_drop]
  congr 1

lemma loop_ne_nil (text : List Char) :
    ∀ f start p : Nat, text.length - start ≤ f → start ≤ p →
      ∀ h3 : p < text.length, ¬ (text.get ⟨p, h3⟩).isWhitespace →
      simpleChunkLoop f text start ≠ [] := by
  intro f
  induction f with
  | zero =>
      intro start p h1 h2 h3 hw
      omega
  | succ g ih =>
      intro start p h1 h2 h3 hw
      have hlt : start < text.length := by omega
      simp only [simpleChunkLoop, if_pos hlt]
      by_cases hpe : p < chunkEnd text start
      · have hchunk : stripChars ((text.drop start).take (chunkEnd text start - start)) ≠ [] := by
          obtain ⟨c, hcmem, hceq⟩ := window_has_char h2 hpe h3
          exact stripChars_ne_nil hcmem (by rw [hceq]; exact hw)
        rw [if_neg hchunk]
        simp
      · have hel := chunkEnd_lower text start
        have hrest := ih (chunkEnd text start - 800) p (by omega) (by omega) h3 hw
        by_cases hchunk : stripChars ((text.drop start).take (chunkEnd text start - start)) = []
        · rw [if_pos hchunk]
          exact hrest
        · rw [if_neg hchunk]
          simp

/-- C10, amended.  The fallback splitter with chunk_size 3200 and
overlap 800: (1) its loop is fuel-independent once the fuel reaches the
remaining length, so the iteration terminates on every input; (2) the
sentence-boundary cutback never moves the chunk end below
start + chunk_size - 199; (3) hence the start index strictly increases
by more than the overlap on every iteration; (4) the result is
non-empty for every non-empty input that has length at most 3200 or
contains a non-whitespace character.  (An all-whitespace input longer
than 3200 characters yields the empty list, so the claim's unrestricted
non-emptiness fails: see the counterexample.) -/
theorem simple_chunk_props :
    (∀ (text : List Char) (f1 start f2 : Nat),
        text.length - start ≤ f1 → text.length - start ≤ f2 →
        simpleChunkLoop f1 text start = simpleChunkLoop f2 text start) ∧
    (∀ (text : List Char) (start : Nat), start + 3200 - 199 ≤ chunkEnd text start) ∧
    (∀ (text : List Char) (start : Nat), start + 800 < chunkEnd text start - 800) ∧
    (∀ text : List Char, text ≠ [] →
        (text.length ≤ 3200 ∨ ∃ c ∈ text, ¬ c.isWhitespace) →
        simple_chunk_text text ≠ []) := by
  refine ⟨loop_fuel_stable, ?_, ?_, ?_⟩
  · intro text start
    have := chunkEnd_lower text start
    omega
  · intro text start
    have := chunkEnd_lower text start
    omega
  · intro text hne hcond
    unfold simple_chunk_text
    by_cases hlen : text.length ≤ 3200
    · rw [if_pos hlen]
      simp
    · rw [if_neg hlen]
      rcases hcond with h | ⟨c, hcmem, hcw⟩
      · omega
      · obtain ⟨⟨p, h3⟩, hget⟩ := List.mem_iff_get.mp hcmem
        exact loop_ne_nil text text.length 0 p (by omega) (by omega) h3
          (by rw [hget]; exact hcw)

/-- C10 witness: the single character a is non-empty and non-whitespace,
and the splitter returns a non-empty chunk list for it. -/
theorem simple_chunk_props_witness :
    simple_chunk_text ['a'] ≠ [] :=
  simple_chunk_props.2.2.2 ['a'] (by decide) (Or.inl (by decide))

lemma stripChars_eq_nil_of_all_ws {l : List Char}
    (h : ∀ c ∈ l, c.isWhitespace) : stripChars l = [] := by
  unfold stripChars
  rw [List.dropWhile_eq_nil_iff.mpr h]
  rfl

lemma loop_all_ws (text : List Char) (hws : ∀ c ∈ text, c.isWhitespace) :
    ∀ f start, simpleChunkLoop f text start = [] := by
  intro f
  induction f with
  | zero => intro start; rfl
  | succ g ih =>
      intro start
      by_cases hlt : start < text.length
      · simp only [simpleChunkLoop, if_pos hlt]
        have hchunk : stripChars
            ((text.drop start).take (chunkEnd text start - start)) = [] := by
          apply stripChars_eq_nil_of_all_ws
          intro c hc
          exact hws c (List.drop_subset _ _ (List.take_subset _ _ hc))
        rw [if_pos hchunk]
        exact ih _
      · simp [simpleChunkLoop, hlt]

/-- C10 counterexample: 3201 space characters form a non-empty input on
which the fallback splitter returns the empty chunk list (every window
strips to nothing), refuting the claim that every non-empty input yields
a non-empty chunk list. -/
theorem whitespace_chunk_counterexample :
    List.replicate 3201 ' ' ≠ ([] : List Char) ∧
    simple_chunk_text (List.replicate 3201 ' ') = [] := by
  constructor
  · intro hnil
    have h0 := congrArg List.length hnil
    rw [List.length_replicate, List.length_nil] at h0
    omega
  · unfold simple_chunk_text
    rw [if_neg (show ¬ (List.replicate 3201 ' ').length ≤ 3200 by
      rw [List.length_replicate]; omega)]
    exact loop_all_ws _
      (fun c hc => by rw [List.eq_of_mem_replicate hc]; decide) _ _

lemma runChunks_length_le (o : Nat → ChunkOutcome) (d : String) :
    ∀ l : List (Nat × String), (runChunks o d l).1.length ≤ l.length := by
  intro l
  induction l with
  | nil => simp [runChunks]
  | cons p rest ih =>
      obtain ⟨i, chunk⟩ := p
      simp only [runChunks]
      cases ho : o i with
      | stored => simpa using ih
      | embedRaised => simp only [List.length_cons]; omega
      | embedEmpty => simp only [List.length_cons]; omega
      | storeRaised => simp only [List.length_cons]; omega

lemma runChunks_stored_mem (o : Nat → ChunkOutcome) (d : String) :
    ∀ l : List (Nat × String), ∀ info ∈ (runChunks o d l).1,
      ∃ p ∈ l, info = ⟨d ++ "_chunk_" ++ toString p.1, mkPreview p.2⟩ := by
  intro l
  induction l with
  | nil => intro info h; simp [runChunks] at h
  | cons p rest ih =>
      obtain ⟨i, chunk⟩ := p
      intro info h
      simp only [runChunks] at h
      cases ho : o i with
      | stored =>
          rw [ho] at h
          rcases List.mem_cons.mp h with h1 | h1
          · exact ⟨(i, chunk), List.mem_cons_self _ _, h1⟩
          · obtain ⟨q, hq, he⟩ := ih info h1
            exact ⟨q, List.mem_cons_of_mem _ hq, he⟩
      | embedRaised =>
          rw [ho] at h
          obtain ⟨q, hq, he⟩ := ih info h
          exact ⟨q, List.mem_cons_of_mem _ hq, he⟩
      | embedEmpty =>
          rw [ho] at h
          obtain ⟨q, hq, he⟩ := ih info h
          exact ⟨q, List.mem_cons_of_mem _ hq, he⟩
      | storeRaised =>
          rw [ho] at h
          obtain ⟨q, hq, he⟩ := ih info h
          exact ⟨q, List.mem_cons_of_mem _ hq, he⟩

lemma enumFrom_length : ∀ (n : Nat) (l : List α), (enumFrom n l).length = l.length := by
  intro n l
  induction l generalizing n with
  | nil => rfl
  | cons a rest ih => simp [enumFrom, ih]

lemma enumFrom_snd_mem : ∀ (n : Nat) (l : List α) (p : Nat × α),
    p ∈ enumFrom n l → p.2 ∈ l := by
  intro n l
  induction l generalizing n with
  | nil => intro p h; simp [enumFrom] at h
  | cons a rest ih =>
      intro p h
      rcases List.mem_cons.mp h with h1 | h1
      · rw [h1]
        exact List.mem_cons_self _ _
      · exact List.mem_cons_of_mem _ (ih (n + 1) p h1)

/-- C2.  For every ingestion reaching the chunk loop with N >= 1 chunks
of which S are stored: if S = 0 the whole operation fails (the returned
status is "failed"); otherwise the result status is "success" exactly
when S / N > 1/2 and "partial_success" otherwise, success_rate is S / N
rounded to two decimals, total_chunks is N, stored_chunks_count is S
(with S <= N), and stored_chunks carries min 5 S preview entries, each
the first-100-character preview of one of the chunks. -/
theorem completion_policy (env : PDEnv) (filename user_id file_type docId text : String)
    (hex : extractText env file_type = ExtractStep.ok text)
    (hlong : ¬ (text = "" ∨ (stripStr text).length < 10))
    (hch : chunk_text env.tokenSplit text ≠ []) :
    ((processChunks env.chunkOutcome docId (chunk_text env.tokenSplit text)).1.length = 0 →
      (process_document env filename user_id file_type docId).1.statusOf = "failed") ∧
    (0 < (processChunks env.chunkOutcome docId (chunk_text env.tokenSplit text)).1.length →
      (process_document env filename user_id file_type docId).1.statusOf =
        (if (1 : ℚ)/2 <
            ((processChunks env.chunkOutcome docId (chunk_text env.tokenSplit text)).1.length : ℚ) /
              ((chunk_text env.tokenSplit text).length : ℚ)
          then "success" else "partial_success") ∧
      (process_document env filename user_id file_type docId).1.successRateOf =
        some (round2
          (((processChunks env.chunkOutcome docId (chunk_text env.tokenSplit text)).1.length : ℚ) /
            ((chunk_text env.tokenSplit text).length : ℚ))) ∧
      (process_document env filename user_id file_type docId).1.totalChunksOf =
        some (chunk_text env.tokenSplit text).length ∧
      (process_document env filename user_id file_type docId).1.storedCountOf =
        some (processChunks env.chunkOutcome docId (chunk_text env.tokenSplit text)).1.length ∧
      (processChunks env.chunkOutcome docId (chunk_text env.tokenSplit text)).1.length ≤
        (chunk_text env.tokenSplit text).length ∧
      (process_document env filename user_id file_type docId).1.storedChunksOf.length =
        min 5 (processChunks env.chunkOutcome docId (chunk_text env.tokenSplit text)).1.length ∧
      ∀ info ∈ (process_document env filename user_id file_type docId).1.storedChunksOf,
        ∃ c ∈ chunk_text env.tokenSplit text, info.preview = mkPreview c) := by
  have hSN : (processChunks env.chunkOutcome docId (chunk_text env.tokenSplit text)).1.length ≤
      (chunk_text env.tokenSplit text).length := by
    unfold processChunks
    calc (runChunks env.chunkOutcome docId
          (enumFrom 0 (chunk_text env.tokenSplit text))).1.length
        ≤ (enumFrom 0 (chunk_text env.tokenSplit text)).length :=
          runChunks_length_le _ _ _
      _ = (chunk_text env.tokenSplit text).length := enumFrom_length _ _
  unfold process_document
  rw [hex]
  simp only [if_neg hlong, if_neg hch]
  constructor
  · intro h0
    rw [if_pos (List.length_eq_zero.mp h0)]
    rfl
  · intro hpos
    have hne : (processChunks env.chunkOutcome docId (chunk_text env.tokenSplit text)).1 ≠ [] := by
      intro h
      rw [h] at hpos
      simp at hpos
    rw [if_neg hne]
    refine ⟨rfl, rfl, rfl, rfl, hSN, ?_, ?_⟩
    · simp [PDResult.storedChunksOf, List.length_take]
    · intro info hinfo
      simp only [PDResult.storedChunksOf] at hinfo
      have hinfo2 := List.take_subset 5 _ hinfo
      obtain ⟨p, hp, he⟩ := runChunks_stored_mem env.chunkOutcome docId _ info hinfo2
      refine ⟨p.2, enumFrom_snd_mem 0 _ p hp, ?_⟩
      rw [he]

/-- A concrete ingestion environment for the completion-policy scenario:
a txt document decoding to 10 characters, split into two 61-character
chunks, of which the first stores and the second has an empty
embedding. -/
def sampleIngestEnv : PDEnv :=
  ⟨"", "", some "0123456789",
   some ["0123456789012345678901234567890123456789012345678901234567890",
         "a123456789012345678901234567890123456789012345678901234567890"],
   fun i => if i = 0 then ChunkOutcome.stored else ChunkOutcome.embedEmpty⟩

/-- C2 witness: for the sampleIngestEnv ingestion N = 2, S = 1, so the
status is partial_success and the counts are as claimed. -/
theorem completion_policy_witness :
    (process_document sampleIngestEnv "f" "u" "txt" "d").1.statusOf =
      "partial_success" ∧
    (process_document sampleIngestEnv "f" "u" "txt" "d").1.totalChunksOf = some 2 ∧
    (process_document sampleIngestEnv "f" "u" "txt" "d").1.storedCountOf = some 1 := by
  have h := (completion_policy sampleIngestEnv "f" "u" "txt" "d" "0123456789"
    (by decide) (by decide) (by decide)).2 (by decide)
  have hS : (processChunks sampleIngestEnv.chunkOutcome "d"
      (chunk_text sampleIngestEnv.tokenSplit "0123456789")).1.length = 1 := by decide
  have hN : (chunk_text sampleIngestEnv.tokenSplit "0123456789").length = 2 := by
    decide
  rw [hS, hN] at h
  refine ⟨?_, ?_, ?_⟩
  · rw [h.1, if_neg (by norm_num)]
  · rw [h.2.2.1]
  · rw [h.2.2.2.1]

/-- C3.  process_document never propagates an exception (every modelled
raise is caught and turned into the failure dictionary); the returned
status is "failed" exactly when a whole-document failure occurs:
unsupported file type or undecodable txt file (extraction error), text
empty or shorter than 10 characters once stripped, zero chunks
produced, or zero chunks stored; and in the under-10-characters case no
chunking, embedding or store step is attempted. -/
theorem failure_surface (env : PDEnv) (filename user_id file_type docId : String) :
    (((process_document env filename user_id file_type docId).1.isFailed = true) ↔
      ((∃ e, extractText env file_type = ExtractStep.err e) ∨
       (∃ text, extractText env file_type = ExtractStep.ok text ∧
          (text = "" ∨ (stripStr text).length < 10 ∨
           chunk_text env.tokenSplit text = [] ∨
           (processChunks env.chunkOutcome docId (chunk_text env.tokenSplit text)).1 = [])))) ∧
    (∀ text, extractText env file_type = ExtractStep.ok text →
        (text = "" ∨ (stripStr text).length < 10) →
        (process_document env filename user_id file_type docId).2 = []) := by
  cases hext : extractText env file_type with
  | err e =>
      have hres : process_document env filename user_id file_type docId =
          (PDResult.failed e, []) := by
        unfold process_document
        rw [hext]
      constructor
      · rw [hres]
        constructor
        · intro _
          exact Or.inl ⟨e, rfl⟩
        · intro _
          rfl
      · intro text htext
        exact ExtractStep.noConfusion htext
  | ok text =>
      by_cases hshort : text = "" ∨ (stripStr text).length < 10
      · have hres : process_document env filename user_id file_type docId =
            (PDResult.failed "No meaningful text content found in document", []) := by
          unfold process_document
          rw [hext]
          simp only [if_pos hshort]
        constructor
        · rw [hres]
          constructor
          · intro _
            refine Or.inr ⟨text, rfl, ?_⟩
            rcases hshort with h | h
            · exact Or.inl h
            · exact Or.inr (Or.inl h)
          · intro _
            rfl
        · intro t ht _
          rw [hres]
      · by_cases hchunks : chunk_text env.tokenSplit text = []
        · have hres : process_document env filename user_id file_type docId =
              (PDResult.failed "Failed to create chunks from document text",
                [PDEvent.chunking]) := by
            unfold process_document
            rw [hext]
            simp only [if_neg hshort, if_pos hchunks]
          constructor
          · rw [hres]
            constructor
            · intro _
              exact Or.inr ⟨text, rfl, Or.inr (Or.inr (Or.inl hchunks))⟩
            · intro _
              rfl
          · intro t ht hs
            injection ht with ht'
            rw [← ht'] at hs
            exact absurd hs hshort
        · by_cases hstored :
              (processChunks env.chunkOutcome docId (chunk_text env.tokenSplit text)).1 = []
          · have hres : process_document env filename user_id file_type docId =
                (PDResult.failed "Failed to store any chunks from the document",
                  PDEvent.chunking ::
                    (processChunks env.chunkOutcome docId
                      (chunk_text env.tokenSplit text)).2.2) := by
              unfold process_document
              rw [hext]
              simp only [if_neg hshort, if_neg hchunks, if_pos hstored]
            constructor
            · rw [hres]
              constructor
              · intro _
                exact Or.inr ⟨text, rfl, Or.inr (Or.inr (Or.inr hstored))⟩
              · intro _
                rfl
            · intro t ht hs
              injection ht with ht'
              rw [← ht'] at hs
              exact absurd hs hshort
          · have hres : process_document env filename user_id file_type docId =
                (PDResult.ok ⟨docId, (chunk_text env.tokenSplit text).length,
                  (processChunks env.chunkOutcome docId (chunk_text env.tokenSplit text)).1.length,
                  (processChunks env.chunkOutcome docId (chunk_text env.tokenSplit text)).2.1,
                  round2
                    (((processChunks env.chunkOutcome docId (chunk_text env.tokenSplit text)).1.length : ℚ) /
                      ((chunk_text env.tokenSplit text).length : ℚ)),
                  text.length,
                  (processChunks env.chunkOutcome docId (chunk_text env.tokenSplit text)).1.take 5,
                  if (1 : ℚ)/2 <
                      ((processChunks env.chunkOutcome docId (chunk_text env.tokenSplit text)).1.length : ℚ) /
                        ((chunk_text env.tokenSplit text).length : ℚ) then "success"
                  else "partial_success"⟩,
                 PDEvent.chunking ::
                   (processChunks env.chunkOutcome docId
                     (chunk_text env.tokenSplit text)).2.2) := by
              unfold process_document
              rw [hext]
              simp only [if_neg hshort, if_neg hchunks, if_neg hstored]
            constructor
            · rw [hres]
              constructor
              · intro hfail
                exact absurd hfail (by simp [PDResult.isFailed])
              · intro hrhs
                rcases hrhs with ⟨e, he⟩ | ⟨t, ht, hdisj⟩
                · exact ExtractStep.noConfusion he
                · injection ht with ht'
                  subst ht'
                  rcases hdisj with h | h | h | h
                  · exact absurd (Or.inl h) hshort
                  · exact absurd (Or.inr h) hshort
                  · exact absurd h hchunks
                  · exact absurd h hstored
            · intro t ht hs
              injection ht with ht'
              rw [← ht'] at hs
              exact absurd hs hshort

/-- C3 witness: a txt file decoding to the 2-character text "hi" fails
before any chunking, embedding or store step: the event trace is
empty. -/
theorem failure_surface_witness :
    (process_document ⟨"", "", some "hi", none, fun _ => ChunkOutcome.stored⟩
        "f" "u" "txt" "d").2 = [] :=
  (failure_surface ⟨"", "", some "hi", none, fun _ => ChunkOutcome.stored⟩
      "f" "u" "txt" "d").2 "hi" (by decide) (Or.inr (by decide))

end ConvAI
